import Mathlib

/-!
Shallow embedding of the GitClawLab deployment control plane.

The definitions below are translated from the TypeScript sources:
- src/db/schema.ts           (deployment records and the SQL-level operations)
- src/api/routes/deploy.ts   (HTTP handlers: trigger, cancel, retry, PATCH)
- src/api/routes/webhooks.ts (webhook creation, SSRF screen, dispatcher)
- src/deploy/types.ts        (deploy engine: parseConfig, sanitizeAppName, deploy)
- src/deploy/docker.ts, src/deploy/providers/fly.ts, src/deploy/providers/railway.ts
- src/api/server.ts and cloudflare-worker/src/index.ts (subdomain routing layers)

Effectful operations (subprocess calls, fetch, the database driver) are modelled
by threading explicit state: the SQL table becomes a list of records, and each
external call's outcome is a field of an explicit world structure.  Handlers are
modelled past their authentication guards (auth is orthogonal to every claim).
-/

namespace GitClawLab

/-! ## Deployment data model (src/db/schema.ts) -/

/-- DeployStatus from src/db/schema.ts: the status column of the deployments
table, a five-value string enum. -/
inductive DeployStatus where
  | pending
  | building
  | deploying
  | success
  | failed
deriving DecidableEq, Repr

/-- Deployment from src/db/schema.ts: one row of the deployments table.
Nullable columns are Option-valued. -/
structure Deployment where
  id : String
  repo_id : String
  commit_sha : String
  target : String
  status : DeployStatus
  url : Option String
  subdomain : Option String
  logs : Option String
  started_at : String
  completed_at : Option String
  deployed_by : String
deriving DecidableEq, Repr

/-- The deployments table, as the list of its rows in insertion order. -/
abbrev DeploymentDB := List Deployment

/-- getDeployment from src/db/schema.ts: SELECT * FROM deployments WHERE id = ?
(first matching row). -/
def getDeployment (db : DeploymentDB) (id : String) : Option Deployment :=
  db.find? (fun d => d.id == id)

/-- One updates object passed to updateDeployment: an outer none means the
column is absent from the update (left unchanged), an inner Option is the
nullable column value being written. -/
structure DeploymentUpdates where
  status : Option DeployStatus := none
  url : Option (Option String) := none
  subdomain : Option (Option String) := none
  logs : Option (Option String) := none
  completed_at : Option (Option String) := none
deriving DecidableEq, Repr

/-- The effect of one UPDATE deployments SET ... WHERE id = ? on a single row:
each present field overwrites the column, absent fields keep the old value. -/
def applyUpdates (u : DeploymentUpdates) (d : Deployment) : Deployment :=
  { d with
    status := u.status.getD d.status
    url := u.url.getD d.url
    subdomain := u.subdomain.getD d.subdomain
    logs := u.logs.getD d.logs
    completed_at := u.completed_at.getD d.completed_at }

/-- updateDeployment from src/db/schema.ts: UPDATE deployments SET ... WHERE
id = ?, applied to every row whose id matches. -/
def updateDeployment (db : DeploymentDB) (id : String) (u : DeploymentUpdates) :
    DeploymentDB :=
  db.map (fun d => if d.id == id then applyUpdates u d else d)

/-- The row inserted by createDeployment from src/db/schema.ts: status starts
at pending, url/subdomain/logs/completed_at start NULL. -/
def newDeploymentRow (id repoId commitSha target deployedBy now : String) :
    Deployment :=
  { id := id
    repo_id := repoId
    commit_sha := commitSha
    target := target
    status := .pending
    url := none
    subdomain := none
    logs := none
    started_at := now
    completed_at := none
    deployed_by := deployedBy }

/-- createDeployment from src/db/schema.ts: INSERT a pending row, then re-read
it with getDeployment.  The id column is a PRIMARY KEY
(001_initial_schema.sql), so inserting a duplicate id fails; that failure is
modelled as none. -/
def createDeployment (db : DeploymentDB) (id repoId commitSha target deployedBy
    now : String) : Option (DeploymentDB × Deployment) :=
  if (getDeployment db id).isSome then
    none
  else
    let db2 := db ++ [newDeploymentRow id repoId commitSha target deployedBy now]
    match getDeployment db2 id with
    | some d => some (db2, d)
    | none => none

/-! ## Deployment HTTP handlers (src/api/routes/deploy.ts)

Each handler is modelled past its auth middleware and access check, returning
the HTTP status code it would send together with the updated table. -/

/-- The log annotation appended by the cancel handler. -/
def cancelAnnotation : String := "\n[CANCELLED] Deployment cancelled by user"

/-- POST /api/deployments/:id/cancel: only pending, building or deploying rows
may be cancelled; a cancellable row is moved to failed, with the cancellation
annotation appended to its logs and completed_at set to the current time. -/
def cancelDeployment (db : DeploymentDB) (id now : String) :
    Nat × DeploymentDB :=
  match getDeployment db id with
  | none => (404, db)
  | some d =>
    if d.status ∈ [DeployStatus.pending, DeployStatus.building,
        DeployStatus.deploying] then
      (200, updateDeployment db id
        { status := some .failed
          logs := some (some ((d.logs.getD "") ++ cancelAnnotation))
          completed_at := some (some now) })
    else
      (400, db)

/-- Outcome of the retry handler: HTTP status, resulting table, and the newly
created row when one was created. -/
structure RetryOutcome where
  httpStatus : Nat
  db : DeploymentDB
  created : Option Deployment
deriving Repr

/-- POST /api/deployments/:id/retry: only a failed row may be retried; a retry
creates a brand-new pending row via createDeployment, sharing repo_id,
commit_sha and target with the original and deployed_by set to the caller. -/
def retryDeployment (db : DeploymentDB) (id newId now agent : String) :
    RetryOutcome :=
  match getDeployment db id with
  | none => { httpStatus := 404, db := db, created := none }
  | some d =>
    if d.status = .failed then
      match createDeployment db newId d.repo_id d.commit_sha d.target agent now with
      | some (db2, created) => { httpStatus := 201, db := db2, created := some created }
      | none => { httpStatus := 500, db := db, created := none }
    else
      { httpStatus := 400, db := db, created := none }

/-- PATCH /api/deployments/:id: the internal worker endpoint copies every field
present in the body into an updates object and hands it to updateDeployment
without any validation of the status transition. -/
def patchDeployment (db : DeploymentDB) (id : String) (u : DeploymentUpdates) :
    Nat × DeploymentDB :=
  match getDeployment db id with
  | none => (404, db)
  | some _ => (200, updateDeployment db id u)

/-! ## Operation sequences over one deployment record (claim C1)

The control-plane operations that can touch a deployment row: the deploy
trigger (createDeployment), the detached background pipeline's two status
writes (the deploy route variant that runs the engine after responding),
cancel, retry, and the internal PATCH endpoint. -/

/-- One control-plane operation, with the data the corresponding handler
receives.  Operations that create a row carry the fresh id the server would
generate; the others address the record under observation. -/
inductive DeployOp where
  | trigger (newId repoId commitSha target agent now : String)
  | cancel (now : String)
  | retry (newId now agent : String)
  | patch (u : DeploymentUpdates)
  | pipelineStart
  | pipelineFinish (success : Bool) (url subdomain : Option String)
      (logs now : String)
deriving Repr

/-- The table after one operation addressed at record id (trigger and retry
create rows with their own fresh ids; cancel, patch and the pipeline writes
address id).  pipelineStart is the updateDeployment call setting status to
building that the background task issues before invoking the engine;
pipelineFinish is its final write of success or failed together with
url/subdomain/logs/completed_at. -/
def applyOp (id : String) (op : DeployOp) (db : DeploymentDB) : DeploymentDB :=
  match op with
  | .trigger newId repoId commitSha target agent now =>
    match createDeployment db newId repoId commitSha target agent now with
    | some (db2, _) => db2
    | none => db
  | .cancel now => (cancelDeployment db id now).2
  | .retry newId now agent => (retryDeployment db id newId now agent).db
  | .patch u => (patchDeployment db id u).2
  | .pipelineStart => updateDeployment db id { status := some .building }
  | .pipelineFinish success url subdomain logs now =>
    updateDeployment db id
      { status := some (if success then .success else .failed)
        url := some url
        subdomain := some subdomain
        logs := some (some logs)
        completed_at := some (some now) }

/-- The status of record id as observed in a table: one observation when the
record exists, none otherwise. -/
def observeStatus (db : DeploymentDB) (id : String) : List DeployStatus :=
  match getDeployment db id with
  | some d => [d.status]
  | none => []

/-- The statuses of record id observed after each successive operation. -/
def statusTraceAux (id : String) (db : DeploymentDB) :
    List DeployOp → List DeployStatus
  | [] => []
  | op :: ops =>
    let db2 := applyOp id op db
    observeStatus db2 id ++ statusTraceAux id db2 ops

/-- The full observation sequence: the status before any operation runs,
followed by the status after each operation. -/
def statusTrace (db : DeploymentDB) (id : String) (ops : List DeployOp) :
    List DeployStatus :=
  observeStatus db id ++ statusTraceAux id db ops

/-- Collapse of adjacent equal observations: the sequence of status values
observed over time, with each run of repeats recorded once. -/
def destutterStatuses : List DeployStatus → List DeployStatus
  | [] => []
  | [s] => [s]
  | a :: b :: t =>
    if a = b then destutterStatuses (b :: t)
    else a :: destutterStatuses (b :: t)

/-- The success chain of the state machine in section 4.1 of the spec. -/
def successChain : List DeployStatus :=
  [.pending, .building, .deploying, .success]

/-- The failure chain of the state machine in section 4.1 of the spec.  Every
cancel transition (pending, building or deploying moving directly to failed)
is itself a subsequence step of this chain, so the claim's cancel exception is
already covered by the subsequence condition. -/
def failureChain : List DeployStatus :=
  [.pending, .building, .deploying, .failed]

/-- Claim C1's invariant on one record's observation sequence: after
collapsing repeats it is a subsequence of the success chain or of the failure
chain. -/
def StatusSequenceOk (l : List DeployStatus) : Prop :=
  List.Sublist (destutterStatuses l) successChain ∨
    List.Sublist (destutterStatuses l) failureChain

/-- Position of a status along the state machine; the two terminal statuses
share the final rank. -/
def statusRank : DeployStatus → Nat
  | .pending => 0
  | .building => 1
  | .deploying => 2
  | .success => 3
  | .failed => 3

/-- A strict forward move of the state machine. -/
def StatusForward (a b : DeployStatus) : Prop := statusRank a < statusRank b

instance (a b : DeployStatus) : Decidable (StatusForward a b) :=
  inferInstanceAs (Decidable (statusRank a < statusRank b))

instance : IsTrans DeployStatus StatusForward :=
  ⟨fun _ _ _ => Nat.lt_trans⟩

/-- A non-observable-regression step: the status is unchanged or moves
strictly forward. -/
def EqOrForward (a b : DeployStatus) : Prop := a = b ∨ StatusForward a b

instance (a b : DeployStatus) : Decidable (EqOrForward a b) :=
  inferInstanceAs (Decidable (a = b ∨ StatusForward a b))

/-- The side condition of the amended claim C1: PATCH requests may not carry a
status value (updateDeployment applies any status they carry without
validation), and the detached pipeline's unconditional writes are excluded
(they ignore an interleaved cancel). -/
def OpOk : DeployOp → Prop
  | .patch u => u.status = none
  | .pipelineStart => False
  | .pipelineFinish _ _ _ _ _ => False
  | _ => True

/-! ## sanitizeAppName (src/deploy/types.ts, claim C6)

The function is a chain of JavaScript string operations; it is modelled on the
character list of the string.  toLowerCase is modelled as per-character ASCII
lowering (non-ASCII case mapping differs in corner cases, but every non-ASCII
result is replaced by a dash in the very next step). -/

/-- A character the app-name alphabet allows: lowercase ASCII letter, digit,
or dash. -/
def isAppNameChar (c : Char) : Bool :=
  (('a' ≤ c && c ≤ 'z') || ('0' ≤ c && c ≤ '9')) || c == '-'

/-- The replace of every character outside the allowed alphabet by a dash
(the regex replacing the class complement of lowercase alphanumerics and
dashes, applied globally). -/
def replaceDisallowed (c : Char) : Char :=
  if isAppNameChar c then c else '-'

/-- Collapse of every run of dashes to a single dash (the global replace of
one-or-more dashes by one dash). -/
def collapseDashes : List Char → List Char
  | [] => []
  | [c] => [c]
  | a :: b :: t =>
    if a == '-' && b == '-' then collapseDashes (b :: t)
    else a :: collapseDashes (b :: t)

/-- Removal of one leading dash (the anchored leading alternative of the
trimming regex). -/
def dropLeadingDash : List Char → List Char
  | '-' :: cs => cs
  | cs => cs

/-- Removal of one trailing dash (the anchored trailing alternative of the
trimming regex): drop the last character exactly when it is a dash. -/
def dropTrailingDash (cs : List Char) : List Char :=
  if cs.getLast? = some '-' then cs.take (cs.length - 1) else cs

/-- sanitizeAppName from src/deploy/types.ts on a character list: lowercase,
replace disallowed characters with a dash, collapse repeated dashes, trim one
leading and one trailing dash, truncate to 63 characters. -/
def sanitizeCore (cs : List Char) : List Char :=
  (List.take 63
    (dropTrailingDash
      (dropLeadingDash
        (collapseDashes ((cs.map Char.toLower).map replaceDisallowed)))))

/-- sanitizeAppName from src/deploy/types.ts. -/
def sanitizeAppName (s : String) : String :=
  String.mk (sanitizeCore s.data)

/-- The pattern of claim C6 on a character list: between 1 and 63 characters,
all from the app-name alphabet. -/
def matchesAppNamePattern (cs : List Char) : Bool :=
  decide (1 ≤ cs.length) && decide (cs.length ≤ 63) && cs.all isAppNameChar

/-- Two consecutive dashes somewhere in the list. -/
def hasDoubleDash : List Char → Bool
  | a :: b :: t => (a == '-' && b == '-') || hasDoubleDash (b :: t)
  | _ => false

/-! ## String helpers shared by the routing and webhook embeddings -/

/-- Split of a character list at a separator, JavaScript split semantics: an
empty input yields one empty group, separators at the ends yield empty
groups. -/
def splitOnChar (sep : Char) : List Char → List (List Char)
  | [] => [[]]
  | c :: rest =>
    let groups := splitOnChar sep rest
    if c == sep then [] :: groups
    else
      match groups with
      | [] => [[c]]
      | g :: gs => (c :: g) :: gs

/-- Per-character ASCII lowering of a list, the model of toLowerCase. -/
def toLowerList (cs : List Char) : List Char := cs.map Char.toLower

/-! ## Subdomain routing layers (claim C3)

Edge layer: cloudflare-worker/src/index.ts fetch.  Origin layer: the subdomain
proxy middleware of src/api/server.ts createServer.  Both are modelled as the
decision whether the request resolves an application (with the chosen name) or
passes through to the main server. -/

/-- PASSTHROUGH_SUBDOMAINS of the edge worker. -/
def edgePassthroughSubdomains : List String := ["www", "api", "git", "ssh"]

/-- MAIN_SUBDOMAINS of the origin middleware: note the extra empty string. -/
def originMainSubdomains : List String := ["www", "api", "git", "ssh", ""]

/-- The dot-separated labels of a host, as strings. -/
def hostLabels (host : String) : List String :=
  (splitOnChar '.' host.data).map String.mk

/-- The first label of a host (split always returns a nonempty list, matching
the indexing of the sources). -/
def firstLabel (host : String) : String := (hostLabels host).headD ""

/-- The edge worker's passthrough condition: fewer than 3 labels, or first
label among PASSTHROUGH_SUBDOMAINS. -/
def edgePassthrough (hostname : String) : Bool :=
  decide ((hostLabels hostname).length < 3) ||
    edgePassthroughSubdomains.contains (firstLabel hostname)

/-- Whether the edge worker attempts application resolution for a hostname
(the branch past the passthrough return, which treats the first label as the
subdomain to look up). -/
def edgeResolvesApp (hostname : String) : Bool :=
  !(edgePassthrough hostname)

/-- Whether the origin middleware attempts application resolution: it skips
hosts with fewer than 2 labels, then proxies exactly when the host ends with
the base domain and the first label is not among MAIN_SUBDOMAINS. -/
def originResolvesApp (baseDomain hostname : String) : Bool :=
  if (hostLabels hostname).length < 2 then false
  else
    List.isSuffixOf baseDomain.data hostname.data &&
      !(originMainSubdomains.contains (firstLabel hostname))

/-- The resolution condition claim C3 asserts for both layers: at least 3
labels and a first label outside the reserved set (www, api, git, ssh, and
the empty string). -/
def claimedResolvesApp (hostname : String) : Bool :=
  decide (3 ≤ (hostLabels hostname).length) &&
    !(originMainSubdomains.contains (firstLabel hostname))

/-! ## URL parsing model (the WHATWG URL constructor, as used by the sources)

Only the fragment the webhook routes rely on is modelled: scheme, then the
double slash, then an authority whose host part ends at a slash, question mark,
colon or hash; userinfo before a commercial at is stripped; a constructor
failure is none.  The constructor lowercases scheme and host. -/

/-- Split at the first occurrence of a separator, none when absent. -/
def splitFirst (sep : Char) : List Char → Option (List Char × List Char)
  | [] => none
  | c :: rest =>
    if c == sep then some ([], rest)
    else (splitFirst sep rest).map (fun p => (c :: p.1, p.2))

/-- Whether a character sequence occurs contiguously inside another, the model
of the JavaScript includes check on strings. -/
def containsSeq (needle : List Char) : List Char → Bool
  | [] => needle.isEmpty
  | c :: rest => List.isPrefixOf needle (c :: rest) || containsSeq needle rest

/-- The part of a list after its last commercial at, the whole list when none
occurs (userinfo stripping). -/
def afterLastAt (cs : List Char) : List Char :=
  (splitOnChar '@' cs).getLast?.getD cs

/-- A parsed URL: protocol including the trailing colon, and the hostname. -/
structure JsUrl where
  protocol : List Char
  hostname : List Char
deriving DecidableEq, Repr

/-- Model of the URL constructor on a character list. -/
def parseUrlChars (cs : List Char) : Option JsUrl :=
  match splitFirst ':' cs with
  | none => none
  | some (scheme, rest) =>
    if scheme.isEmpty then none
    else
      match rest with
      | '/' :: '/' :: rest2 =>
        let authority := rest2.takeWhile
          (fun c => !((c == '/' || c == '?') || c == '#'))
        let hostPort := afterLastAt authority
        let hostname := hostPort.takeWhile (fun c => !(c == ':'))
        if hostname.isEmpty then none
        else some { protocol := toLowerList scheme ++ [':'],
                    hostname := toLowerList hostname }
      | _ => none

/-! ## SSRF screen and webhook routes (src/api/routes/webhooks.ts) -/

/-- Model of the JavaScript Number conversion for the fragment the SSRF screen
exercises: a nonempty string of decimal digits parses to its value, everything
else is NaN (none).  Hostname labels are exactly in this fragment. -/
def jsNum (cs : List Char) : Option Nat :=
  if !cs.isEmpty && cs.all Char.isDigit then
    some (cs.foldl (fun acc c => acc * 10 + (c.toNat - '0'.toNat)) 0)
  else none

/-- The private/link-local IPv4 screen of isInternalUrl: applies exactly when
the host splits into 4 labels that all parse as numbers, and then blocks
10/8, 172.16/12, 192.168/16, 169.254/16 and 0.0.0.0. -/
def ipBlocked : List (Option Nat) → Bool
  | [some a, some b, some c, some d] =>
    ((((a == 10) ||
      ((a == 172 && decide (16 ≤ b)) && decide (b ≤ 31))) ||
      (a == 192 && b == 168)) ||
      (a == 169 && b == 254)) ||
      (((a == 0 && b == 0) && c == 0) && d == 0)
  | _ => false

/-- Hostname substrings blocked by the SSRF screen. -/
def blockedKeywords : List String :=
  ["internal", "intranet", "corp", "private", "metadata"]

/-- The body of isInternalUrl after URL parsing: loopback names, private
IPv4 ranges, blocked keywords, then non-HTTP(S) schemes. -/
def isInternalHostCore (protocol hostname : List Char) : Bool :=
  let host := toLowerList hostname
  if (host == "localhost".data || host == "127.0.0.1".data) ||
      host == "::1".data then true
  else if ipBlocked ((splitOnChar '.' host).map jsNum) then true
  else if blockedKeywords.any (fun p => containsSeq p.data host) then true
  else if !(protocol == "http:".data || protocol == "https:".data) then true
  else false

/-- isInternalUrl from src/api/routes/webhooks.ts: a malformed URL is blocked,
otherwise the host/protocol screen decides. -/
def isInternalUrl (s : String) : Bool :=
  match parseUrlChars s.data with
  | none => true
  | some u => isInternalHostCore u.protocol u.hostname

/-- The webhook target of claim C7. -/
def metadataUrl : String := "http://169.254.169.254/latest/meta-data"

/-- Webhook from src/api/routes/webhooks.ts: one row of the webhooks table,
with the events JSON column parsed. -/
structure Webhook where
  id : String
  repo_id : String
  url : String
  secret : Option String
  events : List String
  is_active : Bool
  created_at : String
deriving DecidableEq, Repr

/-- One outbound webhook POST: target, event header, optional signature
header, serialized body. -/
structure WebhookDelivery where
  url : String
  event : String
  signature : Option String
  body : String
deriving DecidableEq, Repr

/-- The signature attached to a delivery: present exactly when the stored
secret is a nonempty string (JavaScript truthiness of the secret column).
The HMAC-SHA256 primitive is a parameter of the dispatcher. -/
def webhookSignature (hmac : String → String → String) (secret : Option String)
    (payload : String) : Option String :=
  match secret with
  | some s => if s ≠ "" then some (hmac s payload) else none
  | none => none

/-- deliverWebhooks from src/api/routes/webhooks.ts: the SELECT restricting to
the repository's active subscriptions for the event (the LIKE pattern on the
events JSON column modelled as list membership), then one POST per remaining
subscription, skipped entirely when the SSRF screen blocks its target.
Serialization is abstracted: the payload argument is the serialized body. -/
def deliverWebhooks (hmac : String → String → String) (hooks : List Webhook)
    (repoId eventType payload : String) : List WebhookDelivery :=
  (hooks.filter (fun w =>
      (w.repo_id == repoId && w.is_active) && w.events.contains eventType)).filterMap
    (fun w =>
      if isInternalUrl w.url then none
      else some { url := w.url, event := eventType,
                  signature := webhookSignature hmac w.secret payload,
                  body := payload })

/-- Outcome of the synchronous test-delivery route: the HTTP status returned
to the caller, and the outbound request when one was made. -/
structure TestOutcome where
  httpStatus : Nat
  delivery : Option WebhookDelivery
deriving Repr

/-- POST /api/repos/:name/webhooks/:id/test, past repository lookup and auth:
the SSRF screen rejects with 400 before any outbound request; otherwise a
ping payload is delivered synchronously. -/
def testWebhookDelivery (hmac : String → String → String) (w : Webhook)
    (payload : String) : TestOutcome :=
  if isInternalUrl w.url then { httpStatus := 400, delivery := none }
  else
    { httpStatus := 200,
      delivery := some { url := w.url, event := "ping",
                         signature := webhookSignature hmac w.secret payload,
                         body := payload } }

/-! ## Webhook creation (claim C10) -/

/-- Hex digit table of the Node buffer hex encoding. -/
def hexDigitChar (n : Nat) : Char := "0123456789abcdef".data.getD n '0'

/-- The hex encoding of a byte list: two lowercase hex digits per byte, the
model of toString hex on a random buffer. -/
def bytesToHex : List Nat → List Char
  | [] => []
  | b :: t => hexDigitChar (b / 16) :: hexDigitChar (b % 16) :: bytesToHex t

/-- A lowercase hexadecimal digit. -/
def isHexChar (c : Char) : Bool :=
  c.isDigit || ('a' ≤ c && c ≤ 'f')

/-- The valid event names of the creation route. -/
def validEvents : List String :=
  ["push", "pull_request", "deployment", "deployment_status"]

/-- Outcome of webhook creation: HTTP status, the table, and the 201 response
body (which carries the full secret). -/
structure CreateWebhookOutcome where
  httpStatus : Nat
  db : List Webhook
  response : Option Webhook
deriving Repr

/-- The row the creation route inserts and returns. -/
def createdWebhookRow (wid now repoId url : String) (events : List String)
    (secret : String) : Webhook :=
  { id := wid, repo_id := repoId, url := url, secret := some secret,
    events := events, is_active := true, created_at := now }

/-- POST /api/repos/:name/webhooks, past repository lookup and auth: a missing
or empty url is rejected; a malformed or SSRF-blocked url is rejected; an
invalid event name is rejected; otherwise the row is inserted with the caller
secret when it is a nonempty string, and with the hex encoding of 20 random
bytes otherwise, and the full row is returned.  randBytes is the output of the
random byte source. -/
def createWebhook (db : List Webhook) (wid now : String) (randBytes : List Nat)
    (repoId url : String) (events : Option (List String))
    (secret : Option String) : CreateWebhookOutcome :=
  if url = "" then { httpStatus := 400, db := db, response := none }
  else if (parseUrlChars url.data).isNone then
    { httpStatus := 400, db := db, response := none }
  else if isInternalUrl url then { httpStatus := 400, db := db, response := none }
  else
    let webhookEvents := events.getD ["push"]
    if webhookEvents.all (fun e => validEvents.contains e) then
      let webhookSecret :=
        match secret with
        | some s => if s ≠ "" then s else String.mk (bytesToHex randBytes)
        | none => String.mk (bytesToHex randBytes)
      let w := createdWebhookRow wid now repoId url webhookEvents webhookSecret
      { httpStatus := 201, db := db ++ [w], response := some w }
    else { httpStatus := 400, db := db, response := none }

/-! ## Deploy engine types (src/deploy/types.ts) -/

/-- The closed provider enum. -/
inductive DeployProvider where
  | railway
  | fly
deriving DecidableEq, Repr

/-- The provider's string name as it appears in configs and logs. -/
def DeployProvider.toName : DeployProvider → String
  | .railway => "railway"
  | .fly => "fly"

/-- The deploy section of a manifest; provider and the legacy target key are
kept as raw strings (the target key also admits coolify). -/
structure DeployConfigSection where
  provider : Option String := none
  target : Option String := none
  region : Option String := none
  env : List (String × String) := []
  port : Option Nat := none
  healthcheck : Option String := none
  customDomain : Option String := none
  subdomain : Option String := none
deriving DecidableEq, Repr

/-- MoltlabConfig from src/deploy/types.ts: a parsed manifest. -/
structure MoltlabConfig where
  name : String
  deploy : Option DeployConfigSection := none
deriving DecidableEq, Repr

/-- ProviderStatus from src/deploy/types.ts. -/
structure ProviderStatus where
  installed : Bool
  authenticated : Bool
  version : Option String := none
deriving DecidableEq, Repr

/-- DeployResult from src/deploy/types.ts: what a provider adapter returns. -/
structure DeployResult where
  success : Bool
  url : Option String := none
  customDomain : Option String := none
  error : Option String := none
  logs : List String
deriving DecidableEq, Repr

/-- BuildResult from src/deploy/types.ts: what the Docker build helper
returns. -/
structure BuildResult where
  success : Bool
  imageTag : Option String := none
  error : Option String := none
  logs : List String
deriving DecidableEq, Repr

/-- DeployOptions from src/deploy/types.ts: the normalized options handed to a
provider adapter; the env map is an association list (later keys win). -/
structure DeployOptions where
  repoPath : String
  commitSha : String
  provider : DeployProvider
  appName : String
  config : Option MoltlabConfig := none
  env : List (String × String) := []
  customDomain : Option String := none
deriving Repr

/-! ## Manifest parsing (src/deploy/types.ts parseConfig, claim C9)

The filesystem is modelled as a map from candidate filename to none (file
absent) or the YAML parse outcome of the file's content. -/

/-- The candidate contents of a manifest filename: absent, or present with a
parse outcome. -/
abbrev ConfigFs := String → Option (Except Unit MoltlabConfig)

/-- The conventional manifest filenames, in probe order. -/
def configPaths : List String :=
  ["moltlab.yaml", "moltlab.yml", ".moltlab.yaml", ".moltlab.yml"]

/-- The probe loop of parseConfig: a missing file moves to the next candidate;
a present file that parses is returned; a present file that fails to parse is
logged and the loop moves to the next candidate. -/
def parseConfigAux (files : ConfigFs) : List String → Option MoltlabConfig
  | [] => none
  | p :: rest =>
    match files p with
    | none => parseConfigAux files rest
    | some (.ok cfg) => some cfg
    | some (.error _) => parseConfigAux files rest

/-- parseConfig from src/deploy/types.ts. -/
def parseConfig (files : ConfigFs) : Option MoltlabConfig :=
  parseConfigAux files configPaths

/-- The first candidate filename that exists, with its parse outcome. -/
def firstExistingConfig (files : ConfigFs) :
    List String → Option (Except Unit MoltlabConfig)
  | [] => none
  | p :: rest =>
    match files p with
    | none => firstExistingConfig files rest
    | some r => some r

/-- Claim C9's reading of parseConfig, formalized from the claim's words: the
result is the parse of the first matching (existing) file, and a parse failure
of that file is treated as no manifest. -/
def parseConfigClaim (files : ConfigFs) : Option MoltlabConfig :=
  match firstExistingConfig files configPaths with
  | some (.ok cfg) => some cfg
  | _ => none

/-! ## Provider adapters (src/deploy/providers/fly.ts and railway.ts) -/

/-- Outcome of a provisioning step (createFlyApp or createService), with the
log lines it pushed. -/
structure ProvisionOutcome where
  success : Bool
  serviceId : Option String := none
  error : Option String := none
  logs : List String
deriving Repr

/-- createFlyApp from src/deploy/providers/fly.ts: the flyctl apps create
subprocess outcome is a parameter; an error whose message contains the
already-exists text is treated as success. -/
def createFlyApp (execResult : Except String Unit) (appName : String) :
    ProvisionOutcome :=
  let logs := [s!"Creating Fly app: {appName}"]
  match execResult with
  | .ok _ =>
    { success := true, logs := logs ++ [s!"Created Fly app: {appName}"] }
  | .error errorMessage =>
    if containsSeq "already exists".data errorMessage.data then
      { success := true,
        logs := logs ++ [s!"App {appName} already exists, using existing app"] }
    else
      { success := false, error := some errorMessage, logs := logs }

/-- Outcome of the Railway service-create GraphQL call. -/
inductive RailwayApiOutcome where
  | ok (serviceId : Option String)
  | errors (message : String)
  | fetchError (message : String)
deriving Repr

/-- createService from src/deploy/providers/railway.ts: requires a token; an
API error whose message contains the already-exists or duplicate text is
treated as success. -/
def createService (token : Option String) (apiOutcome : RailwayApiOutcome)
    (serviceName : String) : ProvisionOutcome :=
  match token with
  | none => { success := false, error := some "No Railway token available",
              logs := [] }
  | some _ =>
    let logs := [s!"Creating service: {serviceName}"]
    match apiOutcome with
    | .errors errorMsg =>
      let logs := logs ++ [s!"Service creation error: {errorMsg}"]
      if containsSeq "already exists".data errorMsg.data ||
          containsSeq "duplicate".data errorMsg.data then
        { success := true, logs := logs ++ ["Service already exists, continuing..."] }
      else
        { success := false, error := some errorMsg, logs := logs }
    | .ok serviceId =>
      let sid := serviceId.getD "undefined"
      { success := true, serviceId := serviceId,
        logs := logs ++ [s!"Service created: {sid}"] }
    | .fetchError errorMsg =>
      { success := false, error := some errorMsg,
        logs := logs ++ [s!"Failed to create service: {errorMsg}"] }

/-- External outcomes consumed by one deployToFly run. -/
structure FlyWorld where
  status : ProviderStatus
  createAppExec : Except String Unit
  secretsExec : Except String Unit
  deployExec : Except String Unit
  deployOutput : List String
deriving Repr

/-- deployToFly from src/deploy/providers/fly.ts: status gate, app creation
(idempotent via createFlyApp), fly.toml generation, best-effort secrets, then
the deploy subprocess; on success the URL is derived from the app name. -/
def deployToFly (w : FlyWorld) (options : DeployOptions) : DeployResult :=
  let appName := options.appName
  let logs := ["Starting Fly.io deployment..."]
  if !w.status.installed then
    { success := false,
      error := some "Fly CLI not installed. Install with: curl -L https://fly.io/install.sh | sh",
      logs := logs ++ ["ERROR: Fly CLI (flyctl) not installed"] }
  else if !w.status.authenticated then
    { success := false,
      error := some "Fly CLI not authenticated. Run: flyctl auth login",
      logs := logs ++ ["ERROR: Fly CLI not authenticated"] }
  else
    let ver := w.status.version.getD "undefined"
    let logs := logs ++ [s!"Fly CLI version: {ver}"]
    let createResult := createFlyApp w.createAppExec appName
    let logs := logs ++ createResult.logs
    if !createResult.success then
      { success := false, error := createResult.error, logs := logs }
    else
      let logs := logs ++ ["Ensured fly.toml configuration"]
      let logs :=
        if options.env.isEmpty then logs
        else
          let logs := logs ++ ["Setting Fly secrets..."]
          match w.secretsExec with
          | .ok _ =>
            let n := options.env.length
            logs ++ [s!"Set {n} secrets"]
          | .error msg => logs ++ [s!"Warning: Failed to set some secrets - {msg}"]
      let logs := logs ++ ["Deploying to Fly.io..."]
      match w.deployExec with
      | .ok _ =>
        let deployedUrl := s!"https://{appName}.fly.dev"
        { success := true, url := some deployedUrl,
          logs := logs ++ w.deployOutput ++ [s!"Deployed successfully: {deployedUrl}"] }
      | .error errorMessage =>
        { success := false, error := some errorMessage,
          logs := logs ++ w.deployOutput ++
            [s!"ERROR: Deployment failed - {errorMessage}"] }

/-- External outcomes consumed by one deployToRailway run.  The URL regex
match against the deploy stdout and the domain-creation API calls are
world-provided outcomes. -/
structure RailwayWorld where
  status : ProviderStatus
  token : Option String
  projectId : Option String
  environmentId : Option String
  createResponse : RailwayApiOutcome
  envSetOk : String → Bool
  deployExec : Except String Unit
  deployOutput : List String
  urlInStdout : Option String
  serviceIdLookup : Option String
  domainCreate : Option String
  customDomainAdded : Bool

/-- deployToRailway from src/deploy/providers/railway.ts: status and token
gates, service creation (idempotent via createService), best-effort env vars,
the deploy subprocess, two-tier URL discovery, then best-effort custom-domain
attachment; the deploy is reported successful even when no URL was found. -/
def deployToRailway (w : RailwayWorld) (options : DeployOptions) : DeployResult :=
  let appName := options.appName
  let logs := ["Starting Railway deployment..."]
  if !w.status.installed then
    { success := false,
      error := some "Railway CLI not installed. Install with: npm install -g @railway/cli",
      logs := logs ++ ["ERROR: Railway CLI not installed"] }
  else if !w.status.authenticated then
    { success := false,
      error := some "Railway CLI not authenticated. Run: railway login",
      logs := logs ++ ["ERROR: Railway CLI not authenticated"] }
  else
    let ver := w.status.version.getD "undefined"
    let logs := logs ++ [s!"Railway CLI version: {ver}"]
    match w.projectId with
    | none =>
      { success := false, error := some "RAILWAY_PROJECT_ID not set",
        logs := logs ++ ["ERROR: RAILWAY_PROJECT_ID not set"] }
    | some projectId =>
      let serviceResult := createService w.token w.createResponse appName
      let logs := logs ++ serviceResult.logs
      if !serviceResult.success then
        { success := false,
          error := some ((serviceResult.error).getD "Failed to create service"),
          logs := logs }
      else
        let logs := logs ++ [s!"Deploying as service: {appName}"]
        let logs :=
          if options.env.isEmpty then logs
          else
            (logs ++ ["Setting environment variables..."]) ++
              options.env.flatMap (fun kv =>
                if w.envSetOk kv.1 then [s!"Set env var: {kv.1}"]
                else [s!"Warning: Failed to set env var {kv.1}"])
        let logs := logs ++ ["Deploying to Railway...", s!"Deploying to project: {projectId}"]
        match w.deployExec with
        | .error errorMessage =>
          { success := false, error := some errorMessage,
            logs := logs ++ w.deployOutput ++
              [s!"ERROR: Deployment failed - {errorMessage}"] }
        | .ok _ =>
          let logs := logs ++ w.deployOutput
          let deployedUrl := w.urlInStdout
          let (railwayUrl, logs) :=
            match deployedUrl, w.environmentId with
            | none, some _ =>
              let logs := logs ++
                ["No URL in deployment output, creating service domain via API..."]
              match w.serviceIdLookup with
              | some _ =>
                (match w.domainCreate with
                 | some domain => (some s!"https://{domain}", logs)
                 | none => (none, logs))
              | none => (none, logs)
            | u, _ => (u, logs)
          let domainToAdd := options.customDomain.getD (s!"{appName}.gitclawlab.com")
          let (configuredCustomDomain, logs) :=
            if w.customDomainAdded then
              (some domainToAdd, logs ++ [s!"App accessible at: https://{domainToAdd}"])
            else (none, logs)
          let logs :=
            match railwayUrl with
            | some u => logs ++ [s!"Deployed successfully: {u}"]
            | none => logs ++ ["Deployment initiated (Railway URL pending)"]
          { success := true, url := railwayUrl,
            customDomain := configuredCustomDomain, logs := logs }

/-! ## Deploy engine (src/deploy/types.ts deploy, claims C2 and C9) -/

/-- DeployEngineOptions from src/deploy/types.ts. -/
structure DeployEngineOptions where
  repoPath : String
  commitSha : Option String := none
  provider : Option DeployProvider := none
  appName : Option String := none
  env : List (String × String) := []
  customDomain : Option String := none
deriving Repr

/-- DeployEngineResult from src/deploy/types.ts. -/
structure DeployEngineResult where
  deploymentId : String
  success : Bool
  url : Option String := none
  customDomain : Option String := none
  error : Option String := none
  logs : List String
  provider : DeployProvider
deriving Repr

/-- Result shape of checkDocker from src/deploy/docker.ts. -/
structure DockerStatus where
  installed : Bool
  running : Bool
  version : Option String := none
deriving DecidableEq, Repr

/-- The external calls a deploy run makes, in order. -/
inductive EngineCall where
  | checkDocker
  | buildImage (imageName tag : String)
  | deployRailway
  | deployFly
  | notifyDeployment (appName notifyUrl : String)
  | notifyBuildError (appName : String)
  | removeImage (tag : String)
deriving DecidableEq, Repr

/-- External outcomes consumed by one engine deploy run: every awaited effect
of src/deploy/types.ts deploy is a field, in the order the code can reach
them. -/
structure EngineWorld where
  freshId : String
  repoExists : Bool
  files : ConfigFs
  railwayStatus : ProviderStatus
  flyStatus : ProviderStatus
  hasDockerfile : Bool
  dockerStatus : DockerStatus
  buildResult : BuildResult
  railwayResult : DeployOptions → DeployResult
  flyResult : DeployOptions → DeployResult
  notifyFails : Bool
  notifyErrorMessage : String

/-- detectProvider from src/deploy/types.ts: Railway first, then Fly, first
provider reporting installed and authenticated. -/
def detectProvider (w : EngineWorld) : Option DeployProvider :=
  if w.railwayStatus.installed && w.railwayStatus.authenticated then
    some .railway
  else if w.flyStatus.installed && w.flyStatus.authenticated then
    some .fly
  else none

/-- The provider dispatch and everything after it: merge adapter logs, fire
the success or failure notification (failures of the notification itself are
logged and swallowed), clean up a locally built image, and assemble the
result. -/
def deployEngineFinish (w : EngineWorld) (deploymentId : String)
    (deployOptions : DeployOptions) (builtImageTag : Option String)
    (logs : List String) : DeployEngineResult × List EngineCall :=
  let provider := deployOptions.provider
  let appName := deployOptions.appName
  let (result, deployCall, logs) :=
    match provider with
    | .railway => (w.railwayResult deployOptions, EngineCall.deployRailway,
        logs ++ ["Deploying to Railway..."])
    | .fly => (w.flyResult deployOptions, EngineCall.deployFly,
        logs ++ ["Deploying to Fly.io..."])
  let logs := logs ++ result.logs
  let (logs, notifyCall) :=
    if result.success then
      let logs := logs ++ [s!"Deployment {deploymentId} completed successfully"]
      let logs :=
        match result.url with
        | some u => logs ++ [s!"Deployed URL: {u}"]
        | none => logs
      let logs :=
        match result.customDomain with
        | some d => logs ++ [s!"Custom Domain: https://{d}"]
        | none => logs
      let notifyUrl :=
        match result.customDomain with
        | some d => s!"https://{d}"
        | none => result.url.getD "unknown"
      let logs :=
        if w.notifyFails then logs ++ [s!"Notification failed: {w.notifyErrorMessage}"]
        else logs
      (logs, EngineCall.notifyDeployment appName notifyUrl)
    else
      let err := result.error.getD "undefined"
      let logs := logs ++ [s!"Deployment {deploymentId} failed: {err}"]
      let logs :=
        if w.notifyFails then logs ++ [s!"Notification failed: {w.notifyErrorMessage}"]
        else logs
      (logs, EngineCall.notifyBuildError appName)
  let cleanupCalls :=
    match builtImageTag with
    | some tag => [EngineCall.removeImage tag]
    | none => []
  ({ deploymentId := deploymentId
     success := result.success
     url := result.url
     customDomain := result.customDomain
     error := result.error
     logs := logs
     provider := provider },
   [deployCall, notifyCall] ++ cleanupCalls)

/-- deploy from src/deploy/types.ts, with the list of external calls the run
makes appended to the result.  Control flow is translated branch for branch:
path validation, manifest parse, provider resolution (explicit, then
manifest, then autodetection), app-name normalization, the optional local
Docker build whose failure aborts before any provider call, custom-domain
precedence, provider dispatch, notifications and image cleanup. -/
def deployEngine (w : EngineWorld) (options : DeployEngineOptions) :
    DeployEngineResult × List EngineCall :=
  let deploymentId := w.freshId
  let logs := [s!"Starting deployment {deploymentId}",
               s!"Repository: {options.repoPath}"]
  if !w.repoExists then
    ({ deploymentId := deploymentId, success := false,
       error := some s!"Repository path not found: {options.repoPath}",
       logs := logs ++ ["ERROR: Repository path not found"],
       provider := options.provider.getD .fly }, [])
  else
    let config := parseConfig w.files
    let logs :=
      match config with
      | some c => logs ++ [s!"Found moltlab.yaml: {c.name}"]
      | none => logs
    let configTarget : Option String :=
      match config.bind (·.deploy) with
      | some ds =>
        match ds.provider with
        | some p => some p
        | none => ds.target
      | none => none
    let provider0 : Option DeployProvider :=
      match options.provider with
      | some p => some p
      | none =>
        match configTarget with
        | some t => some (if t == "fly" then .fly else .railway)
        | none => none
    let (providerResolved, logs) :=
      match provider0 with
      | some p => (some p, logs)
      | none =>
        let logs := logs ++ ["No provider specified, auto-detecting..."]
        match detectProvider w with
        | some p =>
          let pname := p.toName
          (some p, logs ++ [s!"Auto-detected provider: {pname}"])
        | none => (none, logs)
    match providerResolved with
    | none =>
      ({ deploymentId := deploymentId, success := false,
         error := some "No deployment provider available. Install and authenticate Railway CLI or Fly CLI.",
         logs := logs ++ ["ERROR: No deployment provider available"],
         provider := .fly }, [])
    | some provider =>
      let fallbackName := "moltlab-" ++ String.mk (toLowerList (deploymentId.data.take 8))
      let appName :=
        options.appName.getD (sanitizeAppName ((config.map (·.name)).getD fallbackName))
      let logs := logs ++ [s!"App name: {appName}"]
      let hasDocker := w.hasDockerfile
      let logs := logs ++ [s!"Dockerfile present: {hasDocker}"]
      let calls : List EngineCall := if hasDocker then [.checkDocker] else []
      let logs :=
        if hasDocker then
          logs ++ [s!"Docker installed: {w.dockerStatus.installed}, running: {w.dockerStatus.running}"]
        else logs
      let deploySection := config.bind (·.deploy)
      let customDomain :=
        match options.customDomain with
        | some cd => some cd
        | none =>
          match deploySection.bind (·.customDomain) with
          | some cd => some cd
          | none => deploySection.bind (·.subdomain)
      let deployOptions : DeployOptions :=
        { repoPath := options.repoPath
          commitSha := options.commitSha.getD "HEAD"
          provider := provider
          appName := appName
          config := config
          env := ((deploySection.map (·.env)).getD []) ++ options.env
          customDomain := customDomain }
      if hasDocker && (w.dockerStatus.installed && w.dockerStatus.running) then
        let imageName := s!"moltlab/{appName}"
        let tag := String.mk ((options.commitSha.getD deploymentId).data.take 12)
        let calls := calls ++ [.buildImage imageName tag]
        let logs := logs ++ w.buildResult.logs
        if !w.buildResult.success then
          let errorMessage := (w.buildResult.error).getD "Docker build failed"
          let logs := logs ++
            [s!"Deployment {deploymentId} failed before deploy: {errorMessage}"]
          let calls := calls ++ [.notifyBuildError appName]
          let logs :=
            if w.notifyFails then
              logs ++ [s!"Notification failed: {w.notifyErrorMessage}"]
            else logs
          ({ deploymentId := deploymentId, success := false,
             error := some errorMessage, logs := logs, provider := provider },
           calls)
        else
          let (res, finishCalls) := deployEngineFinish w deploymentId
            deployOptions w.buildResult.imageTag logs
          (res, calls ++ finishCalls)
      else
        let logs :=
          if hasDocker then
            logs ++ ["Skipping local Docker build: Docker is not installed or not running. Railway will build remotely."]
          else
            logs ++ ["No Dockerfile found; Railway will fall back to Nixpacks build."]
        let (res, finishCalls) := deployEngineFinish w deploymentId
          deployOptions none logs
        (res, calls ++ finishCalls)

/-- A concrete engine world for exercising the engine theorems on explicit
inputs: no manifest on disk, Fly installed and authenticated, no Dockerfile,
both adapters succeeding. -/
def exampleNoManifestWorld : EngineWorld :=
  { freshId := "01ENGINE"
    repoExists := true
    files := fun _ => none
    railwayStatus := { installed := false, authenticated := false }
    flyStatus := { installed := true, authenticated := true }
    hasDockerfile := false
    dockerStatus := { installed := false, running := false }
    buildResult := { success := true, logs := [] }
    railwayResult := fun _ => { success := true, logs := [] }
    flyResult := fun _ =>
      { success := true, url := some "https://app.fly.dev", logs := [] }
    notifyFails := false
    notifyErrorMessage := "" }

/-- The same world with a Dockerfile present, Docker available, and the local
image build failing. -/
def exampleBuildFailWorld : EngineWorld :=
  { exampleNoManifestWorld with
    hasDockerfile := true
    dockerStatus := { installed := true, running := true }
    buildResult := { success := false,
                     error := some "docker build exited with code 1",
                     logs := ["build error"] } }

/-! # Theorems

Helper lemmas first, then one theorem per claim (with its witness or
counterexample where required). -/

/-! ## Lemmas about the sanitizer pipeline (claim C6) -/

theorem collapseDashes_head? (l : List Char) :
    (collapseDashes l).head? = l.head? := by
  induction l with
  | nil => rfl
  | cons a t ih =>
    cases t with
    | nil => rfl
    | cons b t2 =>
      by_cases h : (a == '-' && b == '-') = true
      · have hab : a = '-' ∧ b = '-' := by
          simpa [Bool.and_eq_true, beq_iff_eq] using h
        simp only [collapseDashes, h, if_pos]
        rw [ih]
        simp [hab.1, hab.2]
      · simp [collapseDashes, h]

theorem mem_collapseDashes {c : Char} :
    ∀ {l : List Char}, c ∈ collapseDashes l → c ∈ l := by
  intro l
  induction l with
  | nil => exact fun h => h
  | cons a t ih =>
    cases t with
    | nil => exact fun h => h
    | cons b t2 =>
      intro h
      by_cases hd : (a == '-' && b == '-') = true
      · simp only [collapseDashes, hd, if_pos] at h
        exact List.mem_cons_of_mem _ (ih h)
      · simp only [collapseDashes, hd, if_neg, if_false] at h
        rcases List.mem_cons.mp h with h | h
        · exact h ▸ List.mem_cons_self _ _
        · exact List.mem_cons_of_mem _ (ih h)

theorem hasDoubleDash_collapseDashes (l : List Char) :
    hasDoubleDash (collapseDashes l) = false := by
  induction l with
  | nil => rfl
  | cons a t ih =>
    cases t with
    | nil => rfl
    | cons b t2 =>
      by_cases hd : (a == '-' && b == '-') = true
      · simpa [collapseDashes, hd] using ih
      · simp only [collapseDashes, hd, if_neg, if_false]
        have hh := collapseDashes_head? (b :: t2)
        cases hc : collapseDashes (b :: t2) with
        | nil => rfl
        | cons x xs =>
          rw [hc] at hh ih
          have hx : x = b := by simpa using hh
          subst hx
          simp [hasDoubleDash, hd, ih]

theorem hasDoubleDash_tail {a : Char} {t : List Char}
    (h : hasDoubleDash (a :: t) = false) : hasDoubleDash t = false := by
  cases t with
  | nil => rfl
  | cons b t2 =>
    simp only [hasDoubleDash, Bool.or_eq_false_iff] at h
    exact h.2

theorem hasDoubleDash_take :
    ∀ (l : List Char) (n : Nat), hasDoubleDash l = false →
      hasDoubleDash (l.take n) = false := by
  intro l
  induction l with
  | nil => intro n _; simp [hasDoubleDash]
  | cons a t ih =>
    intro n h
    cases n with
    | zero => rfl
    | succ m =>
      rw [List.take_succ_cons]
      cases t with
      | nil => simp [hasDoubleDash]
      | cons b t2 =>
        cases m with
        | zero => simp [hasDoubleDash]
        | succ k =>
          rw [List.take_succ_cons]
          simp only [hasDoubleDash, Bool.or_eq_false_iff] at h ⊢
          refine ⟨h.1, ?_⟩
          have := ih (k + 1) h.2
          rwa [List.take_succ_cons] at this

theorem hasDoubleDash_dropLeadingDash {l : List Char}
    (h : hasDoubleDash l = false) : hasDoubleDash (dropLeadingDash l) = false := by
  cases l with
  | nil => exact h
  | cons a t =>
    by_cases ha : a = '-'
    · subst ha
      simpa [dropLeadingDash] using hasDoubleDash_tail h
    · cases t with
      | nil => simpa [dropLeadingDash, ha]
      | cons b t2 => simpa [dropLeadingDash, ha] using h

theorem mem_dropLeadingDash {c : Char} {l : List Char}
    (h : c ∈ dropLeadingDash l) : c ∈ l := by
  cases l with
  | nil => exact h
  | cons a t =>
    by_cases ha : a = '-'
    · subst ha
      simp only [dropLeadingDash] at h
      exact List.mem_cons_of_mem _ h
    · cases t with
      | nil => simpa [dropLeadingDash, ha] using h
      | cons b t2 => simpa [dropLeadingDash, ha] using h

theorem hasDoubleDash_dropTrailingDash {l : List Char}
    (h : hasDoubleDash l = false) :
    hasDoubleDash (dropTrailingDash l) = false := by
  unfold dropTrailingDash
  split
  · exact hasDoubleDash_take l _ h
  · exact h

theorem mem_dropTrailingDash {c : Char} {l : List Char}
    (h : c ∈ dropTrailingDash l) : c ∈ l := by
  unfold dropTrailingDash at h
  split at h
  · exact List.mem_of_mem_take h
  · exact h

theorem sanitizeCore_all_valid (cs : List Char) :
    (sanitizeCore cs).all isAppNameChar = true := by
  rw [List.all_eq_true]
  intro c hc
  unfold sanitizeCore at hc
  have h1 := List.mem_of_mem_take hc
  have h2 := mem_dropTrailingDash h1
  have h3 := mem_dropLeadingDash h2
  have h4 := mem_collapseDashes h3
  rcases List.mem_map.mp h4 with ⟨a, _, rfl⟩
  unfold replaceDisallowed
  split
  · assumption
  · rfl

theorem sanitizeCore_no_doubleDash (cs : List Char) :
    hasDoubleDash (sanitizeCore cs) = false := by
  unfold sanitizeCore
  exact hasDoubleDash_take _ _
    (hasDoubleDash_dropTrailingDash
      (hasDoubleDash_dropLeadingDash (hasDoubleDash_collapseDashes _)))

theorem sanitizeCore_length_le (cs : List Char) :
    (sanitizeCore cs).length ≤ 63 := by
  unfold sanitizeCore
  simp

/-- C6, counterexample: the input of three exclamation marks normalizes to
the empty string, whose length 0 falls outside the 1..63 range the claim
asserts for every input (the empty input does the same). -/
theorem sanitizeAppName_claim_counterexample :
    sanitizeAppName "!!!" = "" ∧
    matchesAppNamePattern (sanitizeAppName "!!!").data = false := by
  constructor
  · decide
  · decide

/-- C6, amended: for every input, sanitizeAppName yields at most 63
characters, all of them lowercase letters, digits or dashes, and never two
consecutive dashes; an input with no alphanumeric character can normalize to
the empty string, so the lower length bound 1 of the original claim does not
hold. -/
theorem sanitizeAppName_sanitized (s : String) :
    (sanitizeAppName s).length ≤ 63 ∧
    (sanitizeAppName s).data.all isAppNameChar = true ∧
    hasDoubleDash (sanitizeAppName s).data = false := by
  refine ⟨?_, ?_, ?_⟩
  · show (sanitizeCore s.data).length ≤ 63
    exact sanitizeCore_length_le s.data
  · exact sanitizeCore_all_valid s.data
  · exact sanitizeCore_no_doubleDash s.data

/-! ## Lemmas about the deployment table -/

theorem applyUpdates_id (u : DeploymentUpdates) (d : Deployment) :
    (applyUpdates u d).id = d.id := rfl

theorem getDeployment_updateDeployment (db : DeploymentDB) (id : String)
    (u : DeploymentUpdates) :
    getDeployment (updateDeployment db id u) id =
      (getDeployment db id).map (applyUpdates u) := by
  induction db with
  | nil => rfl
  | cons d t ih =>
    unfold getDeployment updateDeployment at *
    simp only [List.map_cons]
    by_cases h : (d.id == id) = true
    · have hpa : ((applyUpdates u d).id == id) = true := by
        simpa [applyUpdates_id] using h
      rw [if_pos h,
          @List.find?_cons_of_pos _ (fun x => x.id == id) (applyUpdates u d) _ hpa,
          @List.find?_cons_of_pos _ (fun x => x.id == id) d _ h]
      rfl
    · rw [if_neg h,
          @List.find?_cons_of_neg _ (fun x => x.id == id) d _ h,
          @List.find?_cons_of_neg _ (fun x => x.id == id) d _ h]
      exact ih

theorem getDeployment_append (db l : DeploymentDB) (id : String) :
    getDeployment (db ++ l) id =
      (getDeployment db id).or (getDeployment l id) :=
  List.find?_append

/-! ## Claim C4: the cancel endpoint -/

/-- C4: cancellation succeeds exactly when the current status is pending,
building or deploying; a successful cancel moves the record directly to
failed, appends the cancellation annotation to its log and sets a completion
timestamp, leaving all other fields unchanged; a terminal record is rejected
with 400 and the table is left untouched. -/
theorem cancelDeployment_spec (db : DeploymentDB) (id now : String)
    (d : Deployment) (hd : getDeployment db id = some d) :
    ((cancelDeployment db id now).1 = 200 ↔
      (d.status = .pending ∨ d.status = .building ∨ d.status = .deploying)) ∧
    ((d.status = .pending ∨ d.status = .building ∨ d.status = .deploying) →
      getDeployment (cancelDeployment db id now).2 id = some
        { d with status := .failed
                 logs := some ((d.logs.getD "") ++ cancelAnnotation)
                 completed_at := some now }) ∧
    (¬(d.status = .pending ∨ d.status = .building ∨ d.status = .deploying) →
      cancelDeployment db id now = (400, db)) := by
  have hmem : d.status ∈ [DeployStatus.pending, DeployStatus.building,
      DeployStatus.deploying] ↔
      (d.status = .pending ∨ d.status = .building ∨ d.status = .deploying) := by
    simp
  by_cases hs : d.status = .pending ∨ d.status = .building ∨ d.status = .deploying
  · refine ⟨?_, fun _ => ?_, fun hns => absurd hs hns⟩
    · have h200 : (cancelDeployment db id now).1 = 200 := by
        simp only [cancelDeployment, hd]
        rw [if_pos (hmem.mpr hs)]
      exact iff_of_true h200 hs
    · simp only [cancelDeployment, hd]
      rw [if_pos (hmem.mpr hs)]
      rw [getDeployment_updateDeployment, hd]
      rfl
  · have hnm : d.status ∉ [DeployStatus.pending, DeployStatus.building,
        DeployStatus.deploying] := fun hm => hs (hmem.mp hm)
    have h400 : cancelDeployment db id now = (400, db) := by
      simp only [cancelDeployment, hd]
      rw [if_neg hnm]
    refine ⟨?_, fun hs2 => absurd hs2 hs, fun _ => h400⟩
    rw [h400]
    exact iff_of_false (by simp) hs

/-- C4 witness: cancelling a concrete pending deployment returns 200 with the
record moved to failed. -/
theorem cancelDeployment_spec_witness :
    (cancelDeployment [newDeploymentRow "d1" "r1" "c1" "railway" "a1" "t0"]
      "d1" "t1").1 = 200 ∧
    getDeployment (cancelDeployment
        [newDeploymentRow "d1" "r1" "c1" "railway" "a1" "t0"] "d1" "t1").2
      "d1" = some
        { newDeploymentRow "d1" "r1" "c1" "railway" "a1" "t0" with
          status := .failed
          logs := some ("" ++ cancelAnnotation)
          completed_at := some "t1" } := by
  have h := cancelDeployment_spec
    [newDeploymentRow "d1" "r1" "c1" "railway" "a1" "t0"] "d1" "t1"
    (newDeploymentRow "d1" "r1" "c1" "railway" "a1" "t0") (by decide)
  exact ⟨h.1.mpr (Or.inl rfl), h.2.1 (Or.inl rfl)⟩

/-! ## Claim C5: the retry endpoint -/

/-- C5: retry succeeds exactly when the deployment is failed; on success a
brand-new pending record is appended sharing the original's repository id,
commit sha and target, and the table is otherwise unchanged (in particular
every field of every pre-existing record, the original included, is left
intact); a non-failed deployment is rejected with 400 and nothing is
created. -/
theorem retryDeployment_spec (db : DeploymentDB) (id newId now agent : String)
    (d : Deployment) (hd : getDeployment db id = some d)
    (hfresh : getDeployment db newId = none) :
    ((retryDeployment db id newId now agent).httpStatus = 201 ↔
      d.status = .failed) ∧
    (d.status = .failed →
      (retryDeployment db id newId now agent).db =
        db ++ [newDeploymentRow newId d.repo_id d.commit_sha d.target agent now] ∧
      (retryDeployment db id newId now agent).created =
        some (newDeploymentRow newId d.repo_id d.commit_sha d.target agent now) ∧
      (newDeploymentRow newId d.repo_id d.commit_sha d.target agent now).status
        = .pending) ∧
    (d.status ≠ .failed →
      retryDeployment db id newId now agent =
        { httpStatus := 400, db := db, created := none }) := by
  have hcreate : createDeployment db newId d.repo_id d.commit_sha d.target
      agent now = some
        (db ++ [newDeploymentRow newId d.repo_id d.commit_sha d.target agent now],
         newDeploymentRow newId d.repo_id d.commit_sha d.target agent now) := by
    unfold createDeployment
    rw [hfresh]
    simp only [Option.isSome_none, Bool.false_eq_true, if_false]
    rw [getDeployment_append, hfresh]
    simp [getDeployment, newDeploymentRow]
  by_cases hs : d.status = .failed
  · refine ⟨?_, fun _ => ?_, fun hns => absurd hs hns⟩
    · have h201 : (retryDeployment db id newId now agent).httpStatus = 201 := by
        simp only [retryDeployment, hd]
        rw [if_pos hs, hcreate]
      exact iff_of_true h201 hs
    · simp only [retryDeployment, hd]
      rw [if_pos hs, hcreate]
      exact ⟨rfl, rfl, rfl⟩
  · have h400 : retryDeployment db id newId now agent =
        { httpStatus := 400, db := db, created := none } := by
      simp only [retryDeployment, hd]
      rw [if_neg hs]
    refine ⟨?_, fun hs2 => absurd hs2 hs, fun _ => h400⟩
    rw [h400]
    exact iff_of_false (by simp) hs

/-- C5 witness: retrying a concrete failed deployment returns 201, appends a
fresh pending record sharing repository, commit and target, and leaves the
original row in place unchanged. -/
theorem retryDeployment_spec_witness :
    (retryDeployment [{ newDeploymentRow "d1" "r1" "c1" "railway" "a1" "t0"
        with status := .failed }] "d1" "d2" "t2" "a2").httpStatus = 201 ∧
    (retryDeployment [{ newDeploymentRow "d1" "r1" "c1" "railway" "a1" "t0"
        with status := .failed }] "d1" "d2" "t2" "a2").db =
      [{ newDeploymentRow "d1" "r1" "c1" "railway" "a1" "t0" with
          status := .failed },
        newDeploymentRow "d2" "r1" "c1" "railway" "a2" "t2"] := by
  have h := retryDeployment_spec
    [{ newDeploymentRow "d1" "r1" "c1" "railway" "a1" "t0" with
        status := .failed }] "d1" "d2" "t2" "a2"
    { newDeploymentRow "d1" "r1" "c1" "railway" "a1" "t0" with
        status := .failed } (by decide) (by decide)
  exact ⟨h.1.mpr rfl, (h.2.1 rfl).1⟩

/-! ## Claim C3: the two routing layers -/

/-- C3, counterexample: the bare apex host has only 2 labels, so the claim
requires both layers to forward it unmodified with no application resolution;
the origin middleware nevertheless attempts resolution for it (treating the
first label as an application name), because its guard only requires 2 labels
and a base-domain suffix. -/
theorem subdomainRouting_claim_counterexample :
    (hostLabels "gitclawlab.com").length = 2 ∧
    claimedResolvesApp "gitclawlab.com" = false ∧
    originResolvesApp "gitclawlab.com" "gitclawlab.com" = true := by
  refine ⟨by decide, by decide, by decide⟩

/-- C3, amended: the edge worker resolves exactly when the host has at least 3
labels and a first label outside www/api/git/ssh (the empty string is not in
its reserved set); the origin middleware resolves exactly when the host has at
least 2 labels, ends with the configured base domain, and has a first label
outside www/api/git/ssh/empty — so the 2-label apex domain is treated as an
application name at the origin layer. -/
theorem subdomainRouting_layers_exact (baseDomain hostname : String) :
    (edgeResolvesApp hostname = true ↔
      (3 ≤ (hostLabels hostname).length ∧
        firstLabel hostname ∉ edgePassthroughSubdomains)) ∧
    (originResolvesApp baseDomain hostname = true ↔
      (2 ≤ (hostLabels hostname).length ∧
        List.isSuffixOf baseDomain.data hostname.data = true ∧
        firstLabel hostname ∉ originMainSubdomains)) := by
  constructor
  · unfold edgeResolvesApp edgePassthrough
    simp [List.contains, Nat.not_lt, List.elem_iff]
  · unfold originResolvesApp
    by_cases h2 : (hostLabels hostname).length < 2
    · rw [if_pos h2]
      exact iff_of_false (by simp) (fun hc => absurd hc.1 (by omega))
    · rw [if_neg h2]
      have h2le : 2 ≤ (hostLabels hostname).length := Nat.not_lt.mp h2
      simp [List.contains, List.elem_iff, h2le]

/-! ## Claim C9: manifest probing and fail-soft parsing -/

theorem parseConfigAux_eq_head? (files : ConfigFs) :
    ∀ paths : List String, parseConfigAux files paths =
      (paths.filterMap (fun p =>
        match files p with
        | some (.ok cfg) => some cfg
        | _ => none)).head? := by
  intro paths
  induction paths with
  | nil => rfl
  | cons p rest ih =>
    cases hf : files p with
    | none => simp [parseConfigAux, hf, ih]
    | some r =>
      cases r with
      | ok cfg => simp [parseConfigAux, hf]
      | error e => simp [parseConfigAux, hf, ih]

/-- C9, counterexample: when moltlab.yaml exists but fails to parse while
moltlab.yml exists and parses, parseConfig returns the parse of the second
candidate; the claim's reading (the first matching file wins, and its parse
failure means "no manifest") would return none. -/
theorem parseConfig_claim_counterexample :
    parseConfig (fun p =>
      if p == "moltlab.yaml" then some (.error ())
      else if p == "moltlab.yml" then some (.ok { name := "demo" })
      else none) = some { name := "demo" } ∧
    parseConfigClaim (fun p =>
      if p == "moltlab.yaml" then some (.error ())
      else if p == "moltlab.yml" then some (.ok { name := "demo" })
      else none) = none := by
  constructor <;> rfl

/-- C9, amended: parseConfig probes the conventional filenames in order and
returns the first candidate that exists and parses — a parse failure is
logged and probing continues with the remaining filenames (rather than being
treated as "no manifest" outright); only when no candidate parses is the
result none, and the engine then proceeds to provider dispatch instead of
aborting. -/
theorem parseConfig_first_parsable_failSoft :
    (∀ files : ConfigFs, parseConfig files =
      (configPaths.filterMap (fun p =>
        match files p with
        | some (.ok cfg) => some cfg
        | _ => none)).head?) ∧
    (∀ (w : EngineWorld) (options : DeployEngineOptions) (p : DeployProvider),
      w.repoExists = true → parseConfig w.files = none →
      options.provider = some p → w.hasDockerfile = false →
      (EngineCall.deployRailway ∈ (deployEngine w options).2 ∨
        EngineCall.deployFly ∈ (deployEngine w options).2)) := by
  constructor
  · intro files
    exact parseConfigAux_eq_head? files configPaths
  · intro w options p hre hcfg hp hdf
    unfold deployEngine
    simp only [hre, Bool.not_true, Bool.false_eq_true, if_false, hcfg, hp, hdf]
    cases p <;> simp [deployEngineFinish]

/-- C9 witness: with no manifest on disk and an explicit Fly choice, the
engine still reaches the provider call. -/
theorem parseConfig_failSoft_witness :
    parseConfig exampleNoManifestWorld.files = none ∧
    (EngineCall.deployRailway ∈
        (deployEngine exampleNoManifestWorld
          { repoPath := "/repo", provider := some .fly }).2 ∨
      EngineCall.deployFly ∈
        (deployEngine exampleNoManifestWorld
          { repoPath := "/repo", provider := some .fly }).2) :=
  ⟨rfl, parseConfig_first_parsable_failSoft.2 exampleNoManifestWorld
    { repoPath := "/repo", provider := some .fly } .fly rfl rfl rfl rfl⟩

/-! ## Claim C2: a failed local build blocks provider invocation -/

/-- C2: whenever the source tree has a Dockerfile, Docker is installed and
running, and the local image build fails, the engine's deploy returns a
failed result and neither provider adapter's deploy operation is invoked
(this also covers the earlier failure exits, which make no provider call
either). -/
theorem engineBuildFailure_blocks_provider (w : EngineWorld)
    (options : DeployEngineOptions)
    (hdf : w.hasDockerfile = true) (hin : w.dockerStatus.installed = true)
    (hrun : w.dockerStatus.running = true)
    (hbf : w.buildResult.success = false) :
    (deployEngine w options).1.success = false ∧
    EngineCall.deployRailway ∉ (deployEngine w options).2 ∧
    EngineCall.deployFly ∉ (deployEngine w options).2 := by
  unfold deployEngine
  by_cases hre : w.repoExists
  · simp only [hre, Bool.not_true, Bool.false_eq_true, if_false]
    split
    · simp
    · simp only [hdf, hin, hrun, Bool.and_self, if_true, hbf, Bool.not_false,
        if_pos]
      simp
  · simp [hre]

/-- C2 witness: on a concrete world whose Docker build fails, the engine
reports failure and makes no provider call. -/
theorem engineBuildFailure_witness :
    (deployEngine exampleBuildFailWorld
        { repoPath := "/repo", provider := some .railway }).1.success = false ∧
    EngineCall.deployRailway ∉
      (deployEngine exampleBuildFailWorld
        { repoPath := "/repo", provider := some .railway }).2 ∧
    EngineCall.deployFly ∉
      (deployEngine exampleBuildFailWorld
        { repoPath := "/repo", provider := some .railway }).2 :=
  engineBuildFailure_blocks_provider exampleBuildFailWorld
    { repoPath := "/repo", provider := some .railway } rfl rfl rfl rfl

/-! ## Claim C8: idempotent provisioning in both adapters -/

/-- C8: when the remote create-app/create-service step fails with an error
whose text contains the already-exists marker, both adapters treat the step
as success, and the surrounding deploy continues (and can succeed) rather
than returning failure. -/
theorem providerProvisioning_idempotent (msg appName serviceName token : String)
    (hmsg : containsSeq "already exists".data msg.data = true) :
    (createFlyApp (.error msg) appName).success = true ∧
    (createService (some token) (.errors msg) serviceName).success = true ∧
    (∀ (w : FlyWorld) (opts : DeployOptions),
      w.status.installed = true → w.status.authenticated = true →
      w.createAppExec = Except.error msg → w.deployExec = Except.ok () →
      (deployToFly w opts).success = true) ∧
    (∀ (w : RailwayWorld) (opts : DeployOptions) (t pid : String),
      w.status.installed = true → w.status.authenticated = true →
      w.token = some t → w.projectId = some pid →
      w.createResponse = RailwayApiOutcome.errors msg →
      w.deployExec = Except.ok () →
      (deployToRailway w opts).success = true) := by
  refine ⟨by simp [createFlyApp, hmsg], by simp [createService, hmsg], ?_, ?_⟩
  · intro w opts hin hauth hcae hde
    simp [deployToFly, hin, hauth, hcae, hde, createFlyApp, hmsg]
  · intro w opts t pid hin hauth htok hpid hcr hde
    simp only [deployToRailway, hin, hauth, htok, hpid, hcr, hde, createService,
      hmsg, Bool.not_true, Bool.false_eq_true, if_false, Bool.true_or, if_true]

/-- C8 witness: a concrete already-exists error on both adapters, each of
which then completes its deploy successfully. -/
theorem providerProvisioning_idempotent_witness :
    (createFlyApp (.error "Error: Name has already been taken: app already exists")
      "demo").success = true ∧
    (deployToFly
      { status := { installed := true, authenticated := true,
                    version := some "0.2.0" }
        createAppExec := Except.error
          "Error: Name has already been taken: app already exists"
        secretsExec := Except.ok ()
        deployExec := Except.ok ()
        deployOutput := [] }
      { repoPath := "/repo", commitSha := "HEAD", provider := .fly,
        appName := "demo" }).success = true := by
  exact ⟨(providerProvisioning_idempotent
      "Error: Name has already been taken: app already exists" "demo" "demo"
      "tok" (by decide)).1,
    (providerProvisioning_idempotent
      "Error: Name has already been taken: app already exists" "demo" "demo"
      "tok" (by decide)).2.2.1 _ _ rfl rfl rfl rfl⟩

/-! ## Claim C7: the SSRF screen on the metadata endpoint -/

/-- C7: the link-local metadata URL is classified internal; every delivery the
dispatcher actually performs targets a URL the screen passes (so a blocked
subscription is skipped with no outbound request); the test-delivery route
rejects a blocked target with 400 and no outbound request; and every hostname
of the form 169.254.x.y is classified internal whatever the scheme. -/
theorem ssrfScreen_blocks_metadata :
    isInternalUrl metadataUrl = true ∧
    (∀ (hmac : String → String → String) (hooks : List Webhook)
        (repoId eventType payload : String) (d : WebhookDelivery),
      d ∈ deliverWebhooks hmac hooks repoId eventType payload →
      isInternalUrl d.url = false) ∧
    (∀ (hmac : String → String → String) (w : Webhook) (payload : String),
      isInternalUrl w.url = true →
      testWebhookDelivery hmac w payload =
        { httpStatus := 400, delivery := none }) ∧
    (∀ (protocol hostname c d : List Char) (x y : Nat),
      splitOnChar '.' (toLowerList hostname) =
        ["169".data, "254".data, c, d] →
      jsNum c = some x → jsNum d = some y →
      isInternalHostCore protocol hostname = true) := by
  refine ⟨by decide, ?_, ?_, ?_⟩
  · intro hmac hooks repoId eventType payload d hd
    unfold deliverWebhooks at hd
    rcases List.mem_filterMap.mp hd with ⟨wk, hwk, heq⟩
    by_cases hint : isInternalUrl wk.url = true
    · simp [hint] at heq
    · simp only [hint, Bool.false_eq_true, if_false] at heq
      rcases Option.some.inj heq with rfl
      simpa using Bool.not_eq_true _ |>.mp hint
  · intro hmac w payload hint
    simp [testWebhookDelivery, hint]
  · intro protocol hostname c d x y hsplit hx hy
    unfold isInternalHostCore
    have hip : ipBlocked ((splitOnChar '.' (toLowerList hostname)).map jsNum)
        = true := by
      rw [hsplit]
      have h169 : jsNum "169".data = some 169 := by decide
      have h254 : jsNum "254".data = some 254 := by decide
      simp [ipBlocked, h169, h254, hx, hy]
    by_cases h1 : ((toLowerList hostname == "localhost".data ||
        toLowerList hostname == "127.0.0.1".data) ||
        toLowerList hostname == "::1".data) = true
    · simp [h1]
    · simp [h1, hip]

/-- C7 witness: the dispatcher's screening shown on a concrete delivered
webhook, the test route rejecting the concrete metadata target, and the
range conjunct instantiated at 169.254.169.254 itself. -/
theorem ssrfScreen_blocks_metadata_witness :
    isInternalUrl
      { id := "w1", repo_id := "r1", url := "https://example.com/hook",
        secret := none, events := ["push"], is_active := true,
        created_at := "t0" : Webhook }.url = false ∧
    testWebhookDelivery (fun _ p => p)
      { id := "w2", repo_id := "r1", url := metadataUrl,
        secret := some "s", events := ["push"], is_active := true,
        created_at := "t0" } "ping" =
      { httpStatus := 400, delivery := none } ∧
    isInternalHostCore "http:".data "169.254.169.254".data = true := by
  refine ⟨?_, ?_, ?_⟩
  · exact ssrfScreen_blocks_metadata.2.1 (fun _ p => p)
      [{ id := "w1", repo_id := "r1", url := "https://example.com/hook",
         secret := none, events := ["push"], is_active := true,
         created_at := "t0" }] "r1" "push" "{}"
      { url := "https://example.com/hook", event := "push",
        signature := none, body := "{}" } (by decide)
  · exact ssrfScreen_blocks_metadata.2.2.1 (fun _ p => p)
      { id := "w2", repo_id := "r1", url := metadataUrl,
        secret := some "s", events := ["push"], is_active := true,
        created_at := "t0" } "ping" (by decide)
  · exact ssrfScreen_blocks_metadata.2.2.2 "http:".data
      "169.254.169.254".data "169".data "254".data 169 254
      (by decide) (by decide) (by decide)

/-! ## Claim C10: generated webhook secrets -/

theorem bytesToHex_length (bs : List Nat) :
    (bytesToHex bs).length = 2 * bs.length := by
  induction bs with
  | nil => rfl
  | cons b t ih =>
    simp only [bytesToHex, List.length_cons, ih]
    omega

theorem hexDigitChar_isHex : ∀ n, n < 16 → isHexChar (hexDigitChar n) = true := by
  decide

theorem bytesToHex_all_hex (bs : List Nat) (hb : ∀ b ∈ bs, b < 256) :
    (bytesToHex bs).all isHexChar = true := by
  induction bs with
  | nil => rfl
  | cons b t ih =>
    have hb0 : b < 256 := hb b (List.mem_cons_self _ _)
    have hdiv : b / 16 < 16 := by omega
    have hmod : b % 16 < 16 := Nat.mod_lt _ (by omega)
    simp only [bytesToHex, List.all_cons, Bool.and_eq_true]
    exact ⟨hexDigitChar_isHex _ hdiv,
      hexDigitChar_isHex _ hmod,
      ih (fun c hc => hb c (List.mem_cons_of_mem _ hc))⟩

/-- C10: creating a webhook with no secret in the body stores and returns a
generated secret, the hex encoding of 20 random bytes — 40 characters, all
hex digits — and every delivery the dispatcher makes for that webhook
carries a signature. -/
theorem createWebhook_generated_secret (db : List Webhook)
    (wid now repoId url : String) (events : Option (List String))
    (randBytes : List Nat)
    (hurl : url ≠ "")
    (hparse : (parseUrlChars url.data).isSome = true)
    (hssrf : isInternalUrl url = false)
    (hev : (events.getD ["push"]).all (fun e => validEvents.contains e) = true)
    (hlen : randBytes.length = 20) (hb : ∀ b ∈ randBytes, b < 256) :
    (createWebhook db wid now randBytes repoId url events none).httpStatus
      = 201 ∧
    (createWebhook db wid now randBytes repoId url events none).db =
      db ++ [createdWebhookRow wid now repoId url (events.getD ["push"])
        (String.mk (bytesToHex randBytes))] ∧
    (createWebhook db wid now randBytes repoId url events none).response =
      some (createdWebhookRow wid now repoId url (events.getD ["push"])
        (String.mk (bytesToHex randBytes))) ∧
    (String.mk (bytesToHex randBytes)).length = 40 ∧
    (bytesToHex randBytes).all isHexChar = true ∧
    (∀ (hmac : String → String → String) (rid ev payload : String)
        (d : WebhookDelivery),
      d ∈ deliverWebhooks hmac
        [createdWebhookRow wid now repoId url (events.getD ["push"])
          (String.mk (bytesToHex randBytes))] rid ev payload →
      d.signature.isSome = true) := by
  have hne : String.mk (bytesToHex randBytes) ≠ "" := by
    intro h
    have hdata : bytesToHex randBytes = [] := congrArg String.data h
    have hzero : (bytesToHex randBytes).length = 0 := by rw [hdata]; rfl
    rw [bytesToHex_length, hlen] at hzero
    omega
  have hpn : ¬((parseUrlChars url.data).isNone = true) := by
    cases hpe : parseUrlChars url.data with
    | none => rw [hpe] at hparse; simp at hparse
    | some u => simp [hpe]
  have hOut : createWebhook db wid now randBytes repoId url events none =
      { httpStatus := 201,
        db := db ++ [createdWebhookRow wid now repoId url
          (events.getD ["push"]) (String.mk (bytesToHex randBytes))],
        response := some (createdWebhookRow wid now repoId url
          (events.getD ["push"]) (String.mk (bytesToHex randBytes))) } := by
    unfold createWebhook
    rw [if_neg hurl, if_neg hpn]
    simp only [hssrf, Bool.false_eq_true, if_false]
    rw [if_pos hev]
  refine ⟨by rw [hOut], by rw [hOut], by rw [hOut], ?_, ?_, ?_⟩
  · show (bytesToHex randBytes).length = 40
    rw [bytesToHex_length, hlen]
  · exact bytesToHex_all_hex randBytes hb
  · intro hmac rid ev payload d hd
    unfold deliverWebhooks at hd
    rcases List.mem_filterMap.mp hd with ⟨wk, hwk, heq⟩
    have hwk2 : wk = createdWebhookRow wid now repoId url
        (events.getD ["push"]) (String.mk (bytesToHex randBytes)) := by
      simpa using (List.mem_filter.mp hwk).1
    subst hwk2
    by_cases hint : isInternalUrl (createdWebhookRow wid now repoId url
        (events.getD ["push"]) (String.mk (bytesToHex randBytes))).url = true
    · simp [hint] at heq
    · simp only [hint, Bool.false_eq_true, if_false] at heq
      rcases Option.some.inj heq with rfl
      simp [webhookSignature, createdWebhookRow, hne]

/-- C10 witness: a concrete creation call without a secret returns 201 and a
40-hex-character secret. -/
theorem createWebhook_generated_secret_witness :
    (createWebhook [] "w1" "t0" (List.replicate 20 171) "r1"
      "https://example.com/hook" none none).httpStatus = 201 ∧
    (String.mk (bytesToHex (List.replicate 20 171))).length = 40 := by
  have h := createWebhook_generated_secret [] "w1" "t0" "r1"
    "https://example.com/hook" none (List.replicate 20 171)
    (by decide) (by decide) (by decide) (by decide) (by decide) (by decide)
  exact ⟨h.1, h.2.2.2.1⟩

/-! ## Claim C1: the status state machine over operation sequences -/

theorem destutterStatuses_head? (l : List DeployStatus) :
    (destutterStatuses l).head? = l.head? := by
  induction l with
  | nil => rfl
  | cons a t ih =>
    cases t with
    | nil => rfl
    | cons b t2 =>
      by_cases h : a = b
      · simp only [destutterStatuses, if_pos h]
        rw [ih]
        simp [h]
      · simp [destutterStatuses, h]

theorem chain'_destutterStatuses :
    ∀ l, List.Chain' EqOrForward l →
      List.Chain' StatusForward (destutterStatuses l) := by
  intro l
  induction l with
  | nil => intro _; exact List.chain'_nil
  | cons a t ih =>
    cases t with
    | nil => intro _; exact List.chain'_singleton a
    | cons b t2 =>
      intro hch
      obtain ⟨hab, htail⟩ := List.chain'_cons.mp hch
      by_cases h : a = b
      · simp only [destutterStatuses, if_pos h]
        exact ih htail
      · simp only [destutterStatuses, if_neg h]
        have hf : StatusForward a b := hab.resolve_left h
        have hd := ih htail
        have hh := destutterStatuses_head? (b :: t2)
        cases hc : destutterStatuses (b :: t2) with
        | nil => exact List.chain'_singleton a
        | cons x xs =>
          rw [hc] at hh hd
          have hx : x = b := by simpa using hh
          subst hx
          exact List.chain'_cons.mpr ⟨hf, hd⟩

theorem statusRank_three_cases (x : DeployStatus) (h3 : statusRank x = 3) :
    x = .success ∨ x = .failed := by
  cases x with
  | pending => exact absurd h3 (by decide)
  | building => exact absurd h3 (by decide)
  | deploying => exact absurd h3 (by decide)
  | success => exact Or.inl rfl
  | failed => exact Or.inr rfl

theorem pairwise_rel_of_mem {α : Type} {R : α → α → Prop} :
    ∀ {l : List α} {a b : α}, List.Pairwise R l → a ∈ l → b ∈ l →
      a = b ∨ R a b ∨ R b a := by
  intro l
  induction l with
  | nil => intro a b _ ha _; exact absurd ha (List.not_mem_nil a)
  | cons x t ih =>
    intro a b hp ha hb
    obtain ⟨hx, hp2⟩ := List.pairwise_cons.mp hp
    rcases List.mem_cons.mp ha with rfl | ha2
    · rcases List.mem_cons.mp hb with rfl | hb2
      · exact Or.inl rfl
      · exact Or.inr (Or.inl (hx b hb2))
    · rcases List.mem_cons.mp hb with rfl | hb2
      · exact Or.inr (Or.inr (hx a ha2))
      · exact ih hp2 ha2 hb2

theorem sublist_of_cons_of_not_mem {α : Type} {x : α} {l l2 : List α}
    (h : l.Sublist (x :: l2)) (hx : x ∉ l) : l.Sublist l2 := by
  rcases List.sublist_cons_iff.mp h with h | ⟨r, rfl, _⟩
  · exact h
  · exact absurd (List.mem_cons_self _ _) hx

theorem pairwise_sublist_chain (term : DeployStatus) :
    ∀ l : List DeployStatus, List.Pairwise StatusForward l →
      (∀ x ∈ l, statusRank x = 3 → x = term) →
      l.Sublist [DeployStatus.pending, .building, .deploying, term] := by
  intro l
  induction l with
  | nil => intro _ _; exact List.nil_sublist _
  | cons a t ih =>
    intro hp hm
    obtain ⟨ha, hp2⟩ := List.pairwise_cons.mp hp
    have hsub : t.Sublist [DeployStatus.pending, .building, .deploying, term] :=
      ih hp2 (fun x hx h3 => hm x (List.mem_cons_of_mem _ hx) h3)
    cases a with
    | pending =>
      have h1 : DeployStatus.pending ∉ t :=
        fun hmem => absurd (ha _ hmem) (by decide)
      exact List.Sublist.cons₂ _ (sublist_of_cons_of_not_mem hsub h1)
    | building =>
      have h1 : DeployStatus.pending ∉ t :=
        fun hmem => absurd (ha _ hmem) (by decide)
      have h2 : DeployStatus.building ∉ t :=
        fun hmem => absurd (ha _ hmem) (by decide)
      exact List.Sublist.cons _ (List.Sublist.cons₂ _
        (sublist_of_cons_of_not_mem (sublist_of_cons_of_not_mem hsub h1) h2))
    | deploying =>
      have h1 : DeployStatus.pending ∉ t :=
        fun hmem => absurd (ha _ hmem) (by decide)
      have h2 : DeployStatus.building ∉ t :=
        fun hmem => absurd (ha _ hmem) (by decide)
      have h3 : DeployStatus.deploying ∉ t :=
        fun hmem => absurd (ha _ hmem) (by decide)
      exact List.Sublist.cons _ (List.Sublist.cons _ (List.Sublist.cons₂ _
        (sublist_of_cons_of_not_mem
          (sublist_of_cons_of_not_mem
            (sublist_of_cons_of_not_mem hsub h1) h2) h3)))
    | success =>
      have hterm : DeployStatus.success = term :=
        hm _ (List.mem_cons_self _ _) rfl
      have ht : t = [] := by
        cases t with
        | nil => rfl
        | cons y ys =>
          have hy := ha y (List.mem_cons_self _ _)
          have : ¬ StatusForward .success y := by cases y <;> decide
          exact absurd hy this
      subst ht
      rw [← hterm]
      decide
    | failed =>
      have hterm : DeployStatus.failed = term :=
        hm _ (List.mem_cons_self _ _) rfl
      have ht : t = [] := by
        cases t with
        | nil => rfl
        | cons y ys =>
          have hy := ha y (List.mem_cons_self _ _)
          have : ¬ StatusForward .failed y := by cases y <;> decide
          exact absurd hy this
      subst ht
      rw [← hterm]
      decide

theorem chain'_forward_chains (l : List DeployStatus)
    (h : List.Chain' StatusForward l) :
    l.Sublist successChain ∨ l.Sublist failureChain := by
  have hp : l.Pairwise StatusForward := List.chain'_iff_pairwise.mp h
  by_cases hf : DeployStatus.failed ∈ l
  · right
    apply pairwise_sublist_chain .failed l hp
    intro x hx h3
    rcases statusRank_three_cases x h3 with rfl | rfl
    · rcases pairwise_rel_of_mem hp hx hf with heq | hR | hR
      · exact absurd heq (by decide)
      · exact absurd hR (by decide)
      · exact absurd hR (by decide)
    · rfl
  · left
    apply pairwise_sublist_chain .success l hp
    intro x hx h3
    rcases statusRank_three_cases x h3 with rfl | rfl
    · rfl
    · exact absurd hx hf

theorem getDeployment_createDeployment_other (db : DeploymentDB)
    (newId a b c dd now id : String) (d : Deployment)
    (hd : getDeployment db id = some d) :
    ∀ db2 r, createDeployment db newId a b c dd now = some (db2, r) →
      getDeployment db2 id = some d := by
  intro db2 r hc
  unfold createDeployment at hc
  by_cases hex : (getDeployment db newId).isSome = true
  · rw [if_pos hex] at hc
    exact absurd hc (by simp)
  · rw [if_neg hex] at hc
    cases hg : getDeployment (db ++ [newDeploymentRow newId a b c dd now])
        newId with
    | none =>
      simp only [hg] at hc
      exact Option.noConfusion hc
    | some r2 =>
      simp only [hg, Option.some.injEq, Prod.mk.injEq] at hc
      rw [← hc.1, getDeployment_append, hd]
      rfl

theorem applyOp_getDeployment_forward (id : String) (op : DeployOp)
    (hop : OpOk op) (db : DeploymentDB) (d : Deployment)
    (hd : getDeployment db id = some d) :
    ∃ e, getDeployment (applyOp id op db) id = some e ∧
      EqOrForward d.status e.status := by
  cases op with
  | trigger newId repoId commitSha target agent now =>
    refine ⟨d, ?_, Or.inl rfl⟩
    simp only [applyOp]
    cases hc : createDeployment db newId repoId commitSha target agent now with
    | none => exact hd
    | some p =>
      obtain ⟨db2c, rc⟩ := p
      exact getDeployment_createDeployment_other db newId repoId commitSha
        target agent now id d hd db2c rc hc
  | cancel now =>
    simp only [applyOp]
    unfold cancelDeployment
    simp only [hd]
    by_cases hs : d.status ∈ [DeployStatus.pending, DeployStatus.building,
        DeployStatus.deploying]
    · rw [if_pos hs]
      have hup := getDeployment_updateDeployment db id
        { status := some .failed,
          logs := some (some ((d.logs.getD "") ++ cancelAnnotation)),
          completed_at := some (some now) }
      rw [hd] at hup
      refine ⟨_, hup, Or.inr ?_⟩
      show StatusForward d.status DeployStatus.failed
      simp only [List.mem_cons, List.not_mem_nil, or_false] at hs
      rcases hs with h | h | h <;> (rw [h]; decide)
    · rw [if_neg hs]
      exact ⟨d, hd, Or.inl rfl⟩
  | retry newId now agent =>
    simp only [applyOp]
    unfold retryDeployment
    simp only [hd]
    by_cases hs : d.status = .failed
    · rw [if_pos hs]
      cases hc : createDeployment db newId d.repo_id d.commit_sha d.target
          agent now with
      | none => exact ⟨d, hd, Or.inl rfl⟩
      | some p =>
        obtain ⟨db2c, rc⟩ := p
        exact ⟨d, getDeployment_createDeployment_other db newId d.repo_id
          d.commit_sha d.target agent now id d hd db2c rc hc, Or.inl rfl⟩
    · rw [if_neg hs]
      exact ⟨d, hd, Or.inl rfl⟩
  | patch u =>
    simp only [applyOp]
    unfold patchDeployment
    simp only [hd]
    refine ⟨applyUpdates u d, ?_, ?_⟩
    · show getDeployment (updateDeployment db id u) id = _
      rw [getDeployment_updateDeployment, hd]
      rfl
    · left
      show d.status = (applyUpdates u d).status
      have hu : u.status = none := hop
      simp [applyUpdates, hu]
  | pipelineStart => exact hop.elim
  | pipelineFinish success url subdomain logs now => exact hop.elim

theorem chain'_statusTrace (id : String) :
    ∀ (ops : List DeployOp) (db : DeploymentDB),
      (∀ op ∈ ops, OpOk op) →
      List.Chain' EqOrForward (statusTrace db id ops) := by
  intro ops
  induction ops with
  | nil =>
    intro db _
    unfold statusTrace statusTraceAux observeStatus
    cases getDeployment db id
    · exact List.chain'_nil
    · exact List.chain'_singleton _
  | cons op ops ih =>
    intro db hops
    have hopok : OpOk op := hops op (List.mem_cons_self _ _)
    have hrest : ∀ o ∈ ops, OpOk o :=
      fun o ho => hops o (List.mem_cons_of_mem _ ho)
    have hIH := ih (applyOp id op db) hrest
    have hsplit : statusTrace db id (op :: ops) =
        observeStatus db id ++ statusTrace (applyOp id op db) id ops := by
      simp only [statusTrace, statusTraceAux]
    rw [hsplit]
    cases hd : getDeployment db id with
    | none => simpa [observeStatus, hd] using hIH
    | some d =>
      obtain ⟨e, he, hf⟩ := applyOp_getDeployment_forward id op hopok db d hd
      simp only [observeStatus, hd, List.singleton_append]
      rw [List.chain'_cons']
      refine ⟨?_, hIH⟩
      intro y hy
      have hhead : (statusTrace (applyOp id op db) id ops).head?
          = some e.status := by
        unfold statusTrace observeStatus
        rw [he]
        rfl
      rw [hhead] at hy
      simp only [Option.mem_def, Option.some.injEq] at hy
      exact hy ▸ hf

/-- C1, amended: for every record (whatever state the table starts in) and
every sequence of trigger, cancel, retry, and status-free PATCH operations,
the sequence of status values observed on that record over time is a
subsequence of pending, building, deploying, success or of pending, building,
deploying, failed — the cancel transition being itself such a subsequence
step.  The exceptions the code forces: a PATCH carrying a status value is
applied by updateDeployment with no state-machine validation (the
counterexample), and the detached pipeline's unconditional building/terminal
writes ignore an interleaved cancel (a cancelled record can move failed to
building), so those operations must be excluded. -/
theorem deploymentStatusSequence (db : DeploymentDB) (id : String)
    (ops : List DeployOp) (hops : ∀ op ∈ ops, OpOk op) :
    StatusSequenceOk (statusTrace db id ops) := by
  unfold StatusSequenceOk
  exact chain'_forward_chains _
    (chain'_destutterStatuses _ (chain'_statusTrace id ops db hops))

/-- C1 witness: a concrete pending record taken through cancel and retry
satisfies the subsequence invariant. -/
theorem deploymentStatusSequence_witness :
    StatusSequenceOk (statusTrace
      [newDeploymentRow "d1" "r1" "c1" "railway" "a1" "t0"] "d1"
      [DeployOp.cancel "t1", DeployOp.retry "d2" "t2" "a2"]) :=
  deploymentStatusSequence _ _ _ (by
    intro op hop
    simp only [List.mem_cons, List.mem_singleton] at hop
    rcases hop with rfl | rfl | h
    · trivial
    · trivial
    · exact absurd h (List.not_mem_nil _))

/-- C1, counterexample: two PATCH requests move a concrete record pending,
then success, then back to pending; the observed sequence pending, success,
pending is not a subsequence of either chain, so the claim fails with PATCH
among the operations. -/
theorem deploymentStatusSequence_counterexample :
    ¬ StatusSequenceOk (statusTrace
      [newDeploymentRow "d1" "r1" "c1" "railway" "a1" "t0"] "d1"
      [DeployOp.patch { status := some .success },
       DeployOp.patch { status := some .pending }]) := by
  unfold StatusSequenceOk
  decide

end GitClawLab
